import Mathlib

/-!
Shallow embedding of `stock_analysis.py` (stock market data loading and
analysis).  Numeric fields are modelled with exact rationals (`ℚ`) in place
of Python floats and with `ℤ` in place of Python ints; every concrete value
appearing in the development is exactly representable in binary floating
point, so the arithmetic of the modelled runs agrees with the source.
Python exceptions are modelled with `Except`/`Option`.

The helper classes `TradingData`, `Stock`, `StockCollection` and the
abstract `Loader`/`Analyser` come from the `stocks` module, which is not
part of this repository; those parts are modelled from the spec and say so
in their doc comments.  Everything else is translated directly from
`stock_analysis.py`.
-/

namespace StockAnalysis

/-- Decidable equality for `Except`, used to evaluate loader runs on
concrete inputs. -/
def exceptDecEq {ε α : Type} [DecidableEq ε] [DecidableEq α] :
    (a b : Except ε α) → Decidable (a = b)
  | .ok a, .ok b =>
    if h : a = b then .isTrue (by rw [h]) else .isFalse (by simp [h])
  | .ok _, .error _ => .isFalse (by simp)
  | .error _, .ok _ => .isFalse (by simp)
  | .error e, .error f =>
    if h : e = f then .isTrue (by rw [h]) else .isFalse (by simp [h])

instance {ε α : Type} [DecidableEq ε] [DecidableEq α] : DecidableEq (Except ε α) :=
  exceptDecEq

/-! ## Python string and number primitives -/

/-- Split a list of characters at every occurrence of the separator `c`,
keeping empty pieces, as Python `str.split` with a one-character separator
does (so `splitOn c [] = [[]]`, matching Python `"".split(sep) == [""]`). -/
def splitOn (c : Char) : List Char → List (List Char)
  | [] => [[]]
  | a :: as =>
    if a = c then [] :: splitOn c as
    else
      match splitOn c as with
      | [] => [[a]]
      | p :: ps => (a :: p) :: ps

/-- Numeric value of a list of decimal digit characters, most significant
first. -/
def digitsVal (cs : List Char) : ℕ :=
  cs.foldl (fun a c => a * 10 + (c.toNat - 48)) 0

/-- Drop leading and trailing characters satisfying `p`, as Python
`str.strip` does. -/
def stripChars (p : Char → Bool) (cs : List Char) : List Char :=
  ((cs.dropWhile p).reverse.dropWhile p).reverse

/-- Magnitude part of a Python float literal: `digits`, `digits.`,
`.digits` or `digits.digits`. -/
def pyFloatMag (cs : List Char) : Option ℚ :=
  let ip := cs.takeWhile Char.isDigit
  match cs.dropWhile Char.isDigit with
  | [] => if ip = [] then none else some (digitsVal ip)
  | '.' :: fp =>
    if fp.all Char.isDigit ∧ (ip ≠ [] ∨ fp ≠ []) then
      some ((digitsVal ip : ℚ) + (digitsVal fp : ℚ) / (10 : ℚ) ^ fp.length)
    else none
  | _ => none

/-- Modelled from Python `float(str)`: surrounding whitespace is ignored,
then an optional sign and a decimal literal.  Exponents, `inf` and `nan`
are not modelled; no input in this development uses them. -/
def pyFloat? (cs : List Char) : Option ℚ :=
  match stripChars Char.isWhitespace cs with
  | '+' :: rest => pyFloatMag rest
  | '-' :: rest => (pyFloatMag rest).map Neg.neg
  | rest => pyFloatMag rest

/-- Modelled from Python `int(str)`: surrounding whitespace is ignored,
then an optional sign and a nonempty run of decimal digits. -/
def pyInt? (cs : List Char) : Option ℤ :=
  match stripChars Char.isWhitespace cs with
  | '+' :: rest => if rest ≠ [] ∧ rest.all Char.isDigit then some (digitsVal rest) else none
  | '-' :: rest => if rest ≠ [] ∧ rest.all Char.isDigit then some (-(digitsVal rest : ℤ)) else none
  | rest => if rest ≠ [] ∧ rest.all Char.isDigit then some (digitsVal rest) else none

/-! ## Data model (modelled from the spec) -/

/-- Modelled from the spec: `TradingData` (the `stocks` module is not part
of this repository).  One stock, one trading day: date text plus open,
high, low, close and volume. -/
structure TradingData where
  date : String
  day_open : ℚ
  day_high : ℚ
  day_low : ℚ
  day_close : ℚ
  volume : ℤ
deriving DecidableEq

/-- Modelled from the spec: the `StockCollection` maps stock identifiers to
Stocks, and each Stock holds its Records in insertion order.  We represent
the whole collection as an association list from identifier to record
sequence, in first-seen order. -/
abbrev StockCollection := List (String × List TradingData)

/-- Modelled from the spec: `collection.get_stock(code)` (creating an empty
Stock on first use) followed by `stock.add_day_data(rec)` (appending the
record to the end of the record sequence of that Stock). -/
def addDayData (col : StockCollection) (code : String) (rec : TradingData) :
    StockCollection :=
  match col with
  | [] => [(code, [rec])]
  | (c, rs) :: rest =>
    if c = code then (c, rs ++ [rec]) :: rest
    else (c, rs) :: addDayData rest code rec

/-! ## Error taxonomy

The source raises `RuntimeError` with a message; we model each distinct
message as a constructor.  Messages from `stock_analysis.py`:
`fieldErr day_open` is "Error: day_open not a float." and so on for
`day_high`, `day_low`, `day_close`; `fieldErr volume` is
"Error: volume not an integer."; `notEnoughParameters` is
"Error: not enough parameters in the file."; `invalidTriplet` is
"Error: Invalid data in file. Could not process." -/

inductive FieldName where
  | day_open | day_high | day_low | day_close | volume
deriving DecidableEq

inductive LoadErr where
  | notEnoughParameters
  | fieldErr (f : FieldName)
  | invalidTriplet
deriving DecidableEq

/-! ## LoadCSV -/

/-- Body of the loop in `LoadCSV._process`, applied to the comma-split
fields of one line: check for exactly 7 fields, coerce the numeric fields
(volume after stripping a trailing newline), and produce the stock code
together with the new `TradingData`. -/
def csvFields : List (List Char) → Except LoadErr (String × TradingData)
  | [stock_code, date, day_open, day_high, day_low, day_close, volume] =>
    match pyFloat? day_open with
    | none => .error (.fieldErr .day_open)
    | some o =>
      match pyFloat? day_high with
      | none => .error (.fieldErr .day_high)
      | some hi =>
        match pyFloat? day_low with
        | none => .error (.fieldErr .day_low)
        | some lo =>
          match pyFloat? day_close with
          | none => .error (.fieldErr .day_close)
          | some cl =>
            match pyInt? (stripChars (· = '\n') volume) with
            | none => .error (.fieldErr .volume)
            | some v =>
              .ok (⟨stock_code⟩, ⟨⟨date⟩, o, hi, lo, cl, v⟩)
  | _ => .error .notEnoughParameters

/-- One iteration of `LoadCSV._process` on one line of the file. -/
def csvLine (line : String) : Except LoadErr (String × TradingData) :=
  csvFields (splitOn ',' line.toList)

/-- Source `LoadCSV._process` over the lines of a file: apply each parsed record
to the collection in order; on the first failing line stop, leaving the
collection as already mutated (the exception propagates, nothing is rolled
back). -/
def runCSV : List String → StockCollection → StockCollection × Option LoadErr
  | [], col => (col, none)
  | line :: rest, col =>
    match csvLine line with
    | .error e => (col, some e)
    | .ok (code, rec) => runCSV rest (addDayData col code rec)

/-! ## LoadTriplet -/

/-- Working state of the loop in `LoadTriplet._process`: the line counter,
the field buffer initialised before the loop (the source initialises
`stock_code` to the integer `0`; every successfully parsed line overwrites
it with a string before it can ever reach `get_stock`, so we type it
`String` with placeholder `"0"`), and the collection `self._stocks` being
mutated. -/
structure TripState where
  count : ℕ
  stock_code : String
  date : String
  day_open : ℚ
  day_high : ℚ
  day_low : ℚ
  day_close : ℚ
  volume : ℤ
  col : StockCollection
deriving DecidableEq

/-- The state at the top of `LoadTriplet._process`: counter zero, buffer at
its initial values, collection as passed in. -/
def initTrip (col : StockCollection) : TripState :=
  ⟨0, "0", "", 0, 0, 0, 0, 0, col⟩

/-- The `TradingData` built from the currently buffered field values
(line 267 of the source). -/
def bufRecord (st : TripState) : TradingData :=
  ⟨st.date, st.day_open, st.day_high, st.day_low, st.day_close, st.volume⟩

/-- Key dispatch of `lineOk` once a line has split into exactly three
colon-separated tokens. -/
def lineOk3 (key data : List Char) : Bool :=
  if key = "DA".toList then true
  else if key = "OP".toList then (pyFloat? data).isSome
  else if key = "HI".toList then (pyFloat? data).isSome
  else if key = "LO".toList then (pyFloat? data).isSome
  else if key = "CL".toList then (pyFloat? data).isSome
  else if key = "VO".toList then (pyInt? data).isSome
  else true

/-- Whether one line of a triplet file parses without raising: it must
split into exactly 3 colon-separated tokens, and if its key selects a
numeric field, the data token must coerce.  A key outside
DA/OP/HI/LO/CL/VO parses fine (no branch of the `elif` chain runs). -/
def lineOk (line : String) : Bool :=
  match splitOn ':' line.toList with
  | [_, key, data] => lineOk3 key data
  | _ => false

/-- Key dispatch of `lineUpd` once a line has split into exactly three
colon-separated tokens: `stock_code` is assigned on every line, the data
is stored under its key, and the counter is incremented (also for a key
outside DA/OP/HI/LO/CL/VO, where no `elif` branch runs). -/
def lineUpd3 (code key data : List Char) (st : TripState) : TripState :=
  if key = "DA".toList then
    { st with stock_code := ⟨code⟩, date := ⟨data⟩, count := st.count + 1 }
  else if key = "OP".toList then
    match pyFloat? data with
    | some v => { st with stock_code := ⟨code⟩, day_open := v, count := st.count + 1 }
    | none => st
  else if key = "HI".toList then
    match pyFloat? data with
    | some v => { st with stock_code := ⟨code⟩, day_high := v, count := st.count + 1 }
    | none => st
  else if key = "LO".toList then
    match pyFloat? data with
    | some v => { st with stock_code := ⟨code⟩, day_low := v, count := st.count + 1 }
    | none => st
  else if key = "CL".toList then
    match pyFloat? data with
    | some v => { st with stock_code := ⟨code⟩, day_close := v, count := st.count + 1 }
    | none => st
  else if key = "VO".toList then
    match pyInt? data with
    | some v => { st with stock_code := ⟨code⟩, volume := v, count := st.count + 1 }
    | none => st
  else { st with stock_code := ⟨code⟩, count := st.count + 1 }

/-- The buffer update performed by the `try` block of one loop iteration of
`LoadTriplet._process` (lines 246-260).  On a line where the source would
raise (so `lineOk` is false) this returns the state unchanged; `tripLine`
never uses that branch. -/
def lineUpd (line : String) (st : TripState) : TripState :=
  match splitOn ':' line.toList with
  | [code, key, data] => lineUpd3 code key data st
  | _ => st

/-- Lines 266-270 of the source: when the counter has reached 6, build a
`TradingData` from the buffered values, attach it to the stock named by
the buffered `stock_code`, and restart the counter.  Only the counter is
restarted; the buffered field values are left as they are. -/
def tripFlush (st : TripState) : TripState :=
  if st.count = 6 then
    { st with col := addDayData st.col st.stock_code (bufRecord st), count := 0 }
  else st

/-- One full loop iteration of `LoadTriplet._process` on one line:
parse-and-buffer (raising `invalidTriplet` where the source raises
`RuntimeError`), then emit a record if the counter reached 6. -/
def tripLine (st : TripState) (line : String) : Except LoadErr TripState :=
  if lineOk line then .ok (tripFlush (lineUpd line st)) else .error .invalidTriplet

/-- Source `LoadTriplet._process` over the lines of a file: iterate `tripLine`;
on the first failing line stop, leaving the state (and in particular the
collection) as already reached. -/
def runTrip : List String → TripState → TripState × Option LoadErr
  | [], st => (st, none)
  | line :: rest, st =>
    match tripLine st line with
    | .ok st' => runTrip rest st'
    | .error e => (st, some e)

/-! ## HighLow -/

/-- State of a `HighLow` analyser: the running lists `self._high` and
`self._low`. -/
structure HLState where
  high : List ℚ
  low : List ℚ
deriving DecidableEq

namespace HighLow

/-- Source `HighLow.__init__`. -/
def init : HLState := ⟨[], []⟩

/-- Source `HighLow.process`: append the high and the low of the day.  With well-typed
records the `except ValueError` branch of the source is unreachable, so
the step is total. -/
def process (s : HLState) (day : TradingData) : HLState :=
  ⟨s.high ++ [day.day_high], s.low ++ [day.day_low]⟩

/-- Source `HighLow.reset`. -/
def reset (_ : HLState) : HLState := ⟨[], []⟩

/-- Source `HighLow.result`: `(max(self._high), min(self._low))`, with `min`
evaluated first as in the source; Python raises `ValueError` on an empty
sequence, modelled as `none`. -/
def result (s : HLState) : Option (ℚ × ℚ) :=
  match s.low.min?, s.high.max? with
  | some lo, some hi => some (hi, lo)
  | _, _ => none

end HighLow

/-! ## MovingAverage -/

/-- The value of `self._moving_average`.  The source initialises it to a
list and `reset` reassigns it to the integer `0`, so its runtime type
varies; we model the two possibilities as a sum. -/
inductive MAHist where
  | lst (l : List ℚ)
  | scalar (z : ℤ)
deriving DecidableEq

/-- State of a `MovingAverage` analyser: the configured window
`self._num_days`, the counter `self._days_counted` and the close-price
history `self._moving_average`. -/
structure MAState where
  num_days : ℕ
  days_counted : ℕ
  hist : MAHist
deriving DecidableEq

namespace MovingAverage

/-- Source `MovingAverage.__init__(num_days)`. -/
def init (n : ℕ) : MAState := ⟨n, 0, .lst []⟩

/-- Source `MovingAverage.process`: increment the day counter and append the
close of the day to the history.  When the history is the integer left behind
by `reset`, `append` raises `AttributeError`, which the
`except ValueError` clause does not catch, so it propagates. -/
def process (s : MAState) (close : ℚ) : Except String MAState :=
  match s.hist with
  | .lst l => .ok { s with days_counted := s.days_counted + 1, hist := .lst (l ++ [close]) }
  | .scalar _ => .error "AttributeError: int object has no attribute append"

/-- Source `MovingAverage.reset`: zero the counter and assign the integer `0` —
not an empty list — to the history (line 141 of the source). -/
def reset (s : MAState) : MAState :=
  { s with days_counted := 0, hist := .scalar 0 }

/-- Source `MovingAverage.result`: reverse the history in place (so the call
mutates the analyser), take the first `num_days` entries, and return their
sum divided by the configured `num_days`.  Subscripting the integer left
by `reset` raises `TypeError`; dividing by a zero window raises
`ZeroDivisionError`. -/
def result (s : MAState) : Except String (ℚ × MAState) :=
  match s.hist with
  | .scalar _ => .error "TypeError: int object is not subscriptable"
  | .lst l =>
    if s.num_days = 0 then .error "ZeroDivisionError: division by zero"
    else
      .ok (((l.reverse.take s.num_days).sum / (s.num_days : ℚ)),
           { s with hist := .lst l.reverse })

/-- Modelled from the spec: `Stock.analyse` drives the analyser through
`process` once per stored record in storage order, with no filtering and
no early termination other than a raised exception.  For `MovingAverage`
only the close price of each record is consumed. -/
def processList (s : MAState) : List ℚ → Except String MAState
  | [] => .ok s
  | c :: cs =>
    match process s c with
    | .ok s' => processList s' cs
    | .error e => .error e

end MovingAverage

/-! ## GapUp -/

/-- State of a `GapUp` analyser: the threshold `self._delta`, the previous
close `self._closing_value` (Python `None` before the first record) and
the qualifying list `self._gap_ups`. -/
structure GapState where
  delta : ℚ
  closing_value : Option ℚ
  gap_ups : List TradingData
deriving DecidableEq

namespace GapUp

/-- Source `GapUp.__init__(delta)`. -/
def init (delta : ℚ) : GapState := ⟨delta, none, []⟩

/-- Source `GapUp.process`: on the first day just record its close; afterwards
append the day to the qualifying list when its open exceeds the previous
close by at least `delta`, and always record the new close. -/
def process (s : GapState) (day : TradingData) : GapState :=
  match s.closing_value with
  | none => { s with closing_value := some day.day_close }
  | some c =>
    { s with
      gap_ups := if day.day_open - c ≥ s.delta then s.gap_ups ++ [day] else s.gap_ups,
      closing_value := some day.day_close }

/-- Source `GapUp.reset`. -/
def reset (s : GapState) : GapState := { s with closing_value := none, gap_ups := [] }

/-- Source `GapUp.result`: the last qualifying day, or `None` when the list is
empty (`self._gap_ups[-1]` guarded by truthiness is exactly `getLast?`). -/
def result (s : GapState) : Option TradingData := s.gap_ups.getLast?

end GapUp

/-! ## Variant of the triplet flush following the spec wording

The spec (and the corresponding claim) describes the flush as emitting one
record "using whatever values are currently buffered" and then resetting
the buffer.  The following definitions follow that wording — after a
flush the whole field buffer returns to its initial values — so that they
can be compared with `tripFlush`/`runTrip` above, which translate the
source and reset only the counter. -/

/-- Follows the claim wording, for comparison with `tripFlush`: emit the
buffered record, then reset the working buffer (every field back to its
initial value; the stock code, being the "most recently seen" one, is
kept, though nothing below depends on that choice). -/
def tripFlushSpec (st : TripState) : TripState :=
  if st.count = 6 then
    { initTrip (addDayData st.col st.stock_code (bufRecord st)) with
      stock_code := st.stock_code }
  else st

/-- Definition `tripLine` with the buffer-resetting flush of the claim wording. -/
def tripLineSpec (st : TripState) (line : String) : Except LoadErr TripState :=
  if lineOk line then .ok (tripFlushSpec (lineUpd line st)) else .error .invalidTriplet

/-- Definition `runTrip` with the buffer-resetting flush of the claim wording. -/
def runTripSpec : List String → TripState → TripState × Option LoadErr
  | [], st => (st, none)
  | line :: rest, st =>
    match tripLineSpec st line with
    | .ok st' => runTripSpec rest st'
    | .error e => (st, some e)

/-- The six-line triplet group used for the CSV/triplet comparison, with
the volume matching the CSV line (the claim as frozen writes `VO:10`
against a CSV volume of `100`; see the counterexample). -/
def trip6 : List String :=
  ["CODE:DA:2023-01-01", "CODE:OP:1.0", "CODE:HI:2.0",
   "CODE:LO:0.5", "CODE:CL:1.5", "CODE:VO:100"]

/-- A 12-line triplet input whose second positional group repeats `OP` and
never sets `CL`, separating the source behaviour (stale buffer values
carry over between groups) from the buffer-resetting behaviour the claim
describes. -/
def tripLinesStale : List String :=
  ["A:DA:d1", "A:OP:1.0", "A:HI:2.0", "A:LO:0.5", "A:CL:1.5", "A:VO:10",
   "A:DA:d2", "A:OP:3.0", "A:OP:4.0", "A:HI:5.0", "A:LO:0.25", "A:VO:20"]

/-! ## Helper lemmas -/

/-- Driving a `MovingAverage` whose history is a list through a traversal
never raises: the counter grows by the number of records and the closes
are appended in order. -/
theorem ma_processList (l : List ℚ) : ∀ (s : MAState) (cur : List ℚ),
    s.hist = .lst cur →
    MovingAverage.processList s l =
      .ok { s with days_counted := s.days_counted + l.length,
                   hist := .lst (cur ++ l) } := by
  induction l with
  | nil =>
    intro s cur hh
    obtain ⟨n, dc, h⟩ := s
    simp only [MAHist] at *
    simp [MovingAverage.processList]
    simpa using hh
  | cons c cs ih =>
    intro s cur hh
    have hstep : MovingAverage.process s c =
        .ok { s with days_counted := s.days_counted + 1, hist := .lst (cur ++ [c]) } := by
      simp [MovingAverage.process, hh]
    simp only [MovingAverage.processList, hstep]
    rw [ih _ (cur ++ [c]) rfl]
    simp only [List.length_cons, List.append_assoc, List.singleton_append]
    congr 1
    simp
    omega

/-- Evaluating `MovingAverage.result` on a list-valued history with a nonzero window:
the value returned and the mutated state. -/
theorem ma_result_eq (s : MAState) (l : List ℚ) (hh : s.hist = .lst l)
    (hn : s.num_days ≠ 0) :
    MovingAverage.result s =
      .ok ((l.reverse.take s.num_days).sum / (s.num_days : ℚ),
           { s with hist := .lst l.reverse }) := by
  simp [MovingAverage.result, hh, hn]

theorem splitOn_not_mem (c : Char) (l : List Char) (h : c ∉ l) :
    splitOn c l = [l] := by
  induction l with
  | nil => rfl
  | cons a t ih =>
    simp only [List.mem_cons, not_or] at h
    rw [splitOn, if_neg (fun hac => h.1 hac.symm), ih h.2]

theorem splitOn_append (c : Char) (l1 l2 : List Char) (h : c ∉ l1) :
    splitOn c (l1 ++ c :: l2) = l1 :: splitOn c l2 := by
  induction l1 with
  | nil => simp [splitOn]
  | cons a t ih =>
    simp only [List.mem_cons, not_or] at h
    rw [List.cons_append, splitOn, if_neg (fun hac => h.1 hac.symm), ih h.2]

/-- Helper fact: `splitOn` never returns the empty list, so the `p :: ps` match in its
cons case is exhaustive and a three-token line splits as expected. -/
theorem splitOn_ne_nil (c : Char) (l : List Char) : splitOn c l ≠ [] := by
  cases l with
  | nil => simp [splitOn]
  | cons a t =>
    rw [splitOn]
    split
    · simp
    · cases h : splitOn c t <;> simp

/-- A successfully dispatched triplet token increments the counter by one
and never touches the collection. -/
theorem lineUpd3_count_col (code key data : List Char) (st : TripState)
    (h : lineOk3 key data = true) :
    (lineUpd3 code key data st).count = st.count + 1 ∧
    (lineUpd3 code key data st).col = st.col := by
  unfold lineOk3 at h
  unfold lineUpd3
  split_ifs at h ⊢ <;>
    first
      | exact ⟨rfl, rfl⟩
      | (rcases hv : pyFloat? data with _ | v
         · rw [hv] at h; simp at h
         · simp [hv])
      | (rcases hv : pyInt? data with _ | v
         · rw [hv] at h; simp at h
         · simp [hv])

/-- A successfully parsed triplet line increments the counter by one and
never touches the collection. -/
theorem lineUpd_count_col (line : String) (st : TripState)
    (h : lineOk line = true) :
    (lineUpd line st).count = st.count + 1 ∧ (lineUpd line st).col = st.col := by
  unfold lineOk at h
  unfold lineUpd
  rcases hs : splitOn ':' line.toList with _ | ⟨a, _ | ⟨b, _ | ⟨c, _ | ⟨d, t⟩⟩⟩⟩ <;>
    rw [hs] at h
  · simp at h
  · simp at h
  · simp at h
  · exact lineUpd3_count_col a b c st h
  · simp at h

theorem tripFlush_of_ne (st : TripState) (h : st.count ≠ 6) :
    tripFlush st = st := by
  simp [tripFlush, h]

theorem runTrip_cons_ok (line : String) (rest : List String) (st : TripState)
    (h : lineOk line = true) :
    runTrip (line :: rest) st = runTrip rest (tripFlush (lineUpd line st)) := by
  simp [runTrip, tripLine, h]

/-- Running at most `6 - count` successfully parsing lines performs pure
buffer updates: no flush fires strictly before the counter can reach 6. -/
theorem runTrip_good_lt (l : List String) : ∀ st : TripState,
    (∀ x ∈ l, lineOk x = true) → st.count + l.length < 6 →
    runTrip l st = (l.foldl (fun s x => lineUpd x s) st, none) := by
  induction l with
  | nil => intro st _ _; rfl
  | cons x t ih =>
    intro st hok hlen
    have hx := hok x (List.mem_cons_self x t)
    have hc := (lineUpd_count_col x st hx).1
    rw [runTrip_cons_ok x t st hx,
        tripFlush_of_ne _ (by simp only [List.length_cons] at hlen; omega),
        ih _ (fun y hy => hok y (List.mem_cons_of_mem x hy))
          (by simp only [List.length_cons] at hlen; omega),
        List.foldl_cons]

/-- Running exactly `6 - count` successfully parsing lines performs the
buffer updates and then exactly one flush, at the final line. -/
theorem runTrip_good_six (l : List String) : ∀ st : TripState,
    (∀ x ∈ l, lineOk x = true) → st.count + l.length = 6 → st.count < 6 →
    runTrip l st = (tripFlush (l.foldl (fun s x => lineUpd x s) st), none) := by
  induction l with
  | nil => intro st _ hlen hc; simp at hlen; omega
  | cons x t ih =>
    intro st hok hlen hc
    have hx := hok x (List.mem_cons_self x t)
    have hcnt := (lineUpd_count_col x st hx).1
    rw [runTrip_cons_ok x t st hx]
    cases t with
    | nil => rfl
    | cons y u =>
      rw [tripFlush_of_ne _ (by simp only [List.length_cons] at hlen; omega)]
      rw [ih _ (fun z hz => hok z (List.mem_cons_of_mem x hz))
            (by simp only [List.length_cons] at hlen ⊢; omega)
            (by simp only [List.length_cons] at hlen; omega)]
      simp only [List.foldl_cons]

/-- A comma-split that does not produce exactly 7 fields takes the
catch-all branch of `csvFields`. -/
theorem csvFields_length_ne (ad : List (List Char)) (h : ad.length ≠ 7) :
    csvFields ad = .error .notEnoughParameters := by
  rcases ad with _ | ⟨a1, _ | ⟨a2, _ | ⟨a3, _ | ⟨a4, _ | ⟨a5, _ | ⟨a6, _ | ⟨a7, rest⟩⟩⟩⟩⟩⟩⟩
  · rfl
  · rfl
  · rfl
  · rfl
  · rfl
  · rfl
  · rfl
  · cases rest with
    | nil => exact absurd rfl h
    | cons b bs => rfl

/-! ## Claims -/

/-- C2: the claim states that `reset()` restores the accumulated close
history to an empty sequence and the day counter to zero, so the instance
can be driven through a fresh traversal.  The code zeroes the counter but
assigns the integer `0` to the history, so the very next `process` call
raises an uncaught `AttributeError` instead of accumulating: the claim is
right about the intent (the docstring of `reset` promises a restart) and
the code is wrong. -/
theorem movingAverage_reset_breaks_reuse (s : MAState) (close : ℚ) :
    (MovingAverage.reset s).days_counted = 0 ∧
    (∀ l : List ℚ, (MovingAverage.reset s).hist ≠ .lst l) ∧
    MovingAverage.process (MovingAverage.reset s) close =
      .error "AttributeError: int object has no attribute append" := by
  refine ⟨rfl, ?_, rfl⟩
  intro l
  simp [MovingAverage.reset]

/-- C3: for every `MovingAverage(n)` with `n ≠ 0` and every sequence of
processed closes, `result()` returns the sum of the first `n` entries of
the reversed (most-recent-first) close list divided by the literal
configured `n`, even when fewer than `n` closes were processed. -/
theorem movingAverage_result_window_average (n : ℕ) (closes : List ℚ)
    (hn : n ≠ 0) :
    ∃ s : MAState,
      MovingAverage.processList (MovingAverage.init n) closes = .ok s ∧
      ∃ s' : MAState,
        MovingAverage.result s =
          .ok ((closes.reverse.take n).sum / (n : ℚ), s') := by
  have h := ma_processList closes (MovingAverage.init n) [] rfl
  refine ⟨_, h, ?_⟩
  exact ⟨_, ma_result_eq _ closes rfl hn⟩

/-- C3 witness: `MovingAverage(3)` fed closes in load order
`[10, 20, 30, 40]` returns `30`. -/
theorem movingAverage_result_window_average_witness :
    ∃ s : MAState,
      MovingAverage.processList (MovingAverage.init 3) [10, 20, 30, 40] = .ok s ∧
      ∃ s' : MAState, MovingAverage.result s = .ok (30, s') := by
  obtain ⟨s, hs, s', hr⟩ :=
    movingAverage_result_window_average 3 [10, 20, 30, 40] (by decide)
  have hv : ((([10, 20, 30, 40] : List ℚ).reverse.take 3).sum / ((3 : ℕ) : ℚ)) = 30 := by
    with_unfolding_all decide
  exact ⟨s, hs, s', by rw [hr, hv]⟩

/-- C9: `result()` mutates the analyser — it stores the reversed history —
so it is not idempotent: with more than `n` processed closes, the first
call returns the average (over divisor `n`) of the newest `n` closes and
an immediate second call returns the average of the oldest `n` closes. -/
theorem movingAverage_result_not_idempotent (s : MAState) (closes : List ℚ)
    (hh : s.hist = .lst closes) (hn : s.num_days ≠ 0)
    (_hlen : s.num_days < closes.length) :
    ∃ s₁ s₂ : MAState,
      MovingAverage.result s =
        .ok ((closes.reverse.take s.num_days).sum / (s.num_days : ℚ), s₁) ∧
      s₁.hist = .lst closes.reverse ∧
      MovingAverage.result s₁ =
        .ok ((closes.take s.num_days).sum / (s.num_days : ℚ), s₂) := by
  have h1 := ma_result_eq s closes hh hn
  have h2 := ma_result_eq { s with hist := .lst closes.reverse }
    closes.reverse rfl hn
  rw [List.reverse_reverse] at h2
  exact ⟨_, _, h1, rfl, h2⟩

/-- C9 witness: window 3 over closes `[10, 20, 30, 40]` — the first call
returns `30` (newest three), the immediate second call returns `20`
(oldest three). -/
theorem movingAverage_result_not_idempotent_witness :
    ∃ s₁ s₂ : MAState,
      MovingAverage.result ⟨3, 4, .lst [10, 20, 30, 40]⟩ = .ok (30, s₁) ∧
      MovingAverage.result s₁ = .ok (20, s₂) := by
  obtain ⟨s₁, s₂, h1, hh, h2⟩ :=
    movingAverage_result_not_idempotent ⟨3, 4, .lst [10, 20, 30, 40]⟩
      [10, 20, 30, 40] rfl (by decide) (by decide)
  have hv1 : ((([10, 20, 30, 40] : List ℚ).reverse.take 3).sum / ((3 : ℕ) : ℚ)) = 30 := by
    with_unfolding_all decide
  have hv2 : ((([10, 20, 30, 40] : List ℚ).take 3).sum / ((3 : ℕ) : ℚ)) = 20 := by
    with_unfolding_all decide
  exact ⟨s₁, s₂, by rw [h1, hv1], by rw [h2, hv2]⟩

/-- C5: `GapUp(delta)` over records in storage order — the first record
only stores its close with no comparison; a subsequent record is appended
to the qualifying list exactly when `day.open - previous_close ≥ delta`,
and `previous_close` is always updated to the close of that day; `result()`
returns the last element of the qualifying list, or `none` when the list
is empty. -/
theorem gapUp_process_result_behaviour (s : GapState) (day : TradingData) :
    (s.closing_value = none →
      GapUp.process s day = { s with closing_value := some day.day_close }) ∧
    (∀ c, s.closing_value = some c →
      GapUp.process s day =
        { s with
          gap_ups := if day.day_open - c ≥ s.delta then s.gap_ups ++ [day]
                     else s.gap_ups,
          closing_value := some day.day_close }) ∧
    (s.gap_ups = [] → GapUp.result s = none) ∧
    (∀ (pre : List TradingData) (d : TradingData),
      s.gap_ups = pre ++ [d] → GapUp.result s = some d) := by
  refine ⟨?_, ?_, ?_, ?_⟩
  · intro h; simp [GapUp.process, h]
  · intro c h; simp [GapUp.process, h]
  · intro h; simp [GapUp.result, h]
  · intro pre d h; simp [GapUp.result, h, List.getLast?_concat]

/-- C5 witness: with `delta = 1`, the first day `(open 2, close 5)` is only
recorded; a qualifying state returns its single candidate; an empty
qualifying list yields `none`. -/
theorem gapUp_process_result_behaviour_witness :
    GapUp.process (GapUp.init 1) ⟨"d1", 2, 3, 1, 5, 10⟩ =
      ⟨1, some 5, []⟩ ∧
    GapUp.result ⟨1, some 5, [⟨"d2", 7, 8, 6, 7, 11⟩]⟩ =
      some ⟨"d2", 7, 8, 6, 7, 11⟩ ∧
    GapUp.result (GapUp.init 1) = none := by
  refine ⟨?_, ?_, ?_⟩
  · exact (gapUp_process_result_behaviour (GapUp.init 1) ⟨"d1", 2, 3, 1, 5, 10⟩).1 rfl
  · exact (gapUp_process_result_behaviour ⟨1, some 5, [⟨"d2", 7, 8, 6, 7, 11⟩]⟩
      ⟨"d2", 7, 8, 6, 7, 11⟩).2.2.2 [] ⟨"d2", 7, 8, 6, 7, 11⟩ rfl
  · exact (gapUp_process_result_behaviour (GapUp.init 1)
      ⟨"d1", 2, 3, 1, 5, 10⟩).2.2.1 rfl

/-- The `HighLow` state after a traversal holds exactly the processed highs
and lows, in order. -/
theorem hl_foldl (l : List TradingData) : ∀ s : HLState,
    l.foldl HighLow.process s =
      ⟨s.high ++ l.map TradingData.day_high, s.low ++ l.map TradingData.day_low⟩ := by
  induction l with
  | nil => intro s; cases s; simp
  | cons d t ih =>
    intro s
    simp only [List.foldl_cons, ih, HighLow.process, List.map_cons,
      List.append_assoc, List.singleton_append]

/-- C6: over one or more records, `HighLow.result` returns the pair
(maximum of all processed highs, minimum of all processed lows) — on the
spec example the highs `[2, 5, 3]` and lows `[1, 0.5, 2]` give
`(5, 0.5)` — and over zero records it returns no value (the empty-sequence
failure of `min`/`max`) rather than a sentinel. -/
theorem highLow_result_max_min (hd : TradingData) (tl : List TradingData) :
    HighLow.result ((hd :: tl).foldl HighLow.process HighLow.init) =
      some ((tl.map TradingData.day_high).foldl max hd.day_high,
            (tl.map TradingData.day_low).foldl min hd.day_low) ∧
    HighLow.result (([] : List TradingData).foldl HighLow.process HighLow.init) =
      none ∧
    HighLow.result
      ([(⟨"d1", 0, 2, 1, 0, 0⟩ : TradingData), ⟨"d2", 0, 5, 1/2, 0, 0⟩,
        ⟨"d3", 0, 3, 2, 0, 0⟩].foldl HighLow.process HighLow.init) =
      some (5, 1/2) := by
  refine ⟨?_, rfl, ?_⟩
  · rw [hl_foldl]
    simp only [HighLow.init, List.map_cons, List.nil_append]
    simp only [HighLow.result, List.min?_cons', List.max?_cons']
  · with_unfolding_all decide

/-- C1 counterexample: the claim says the parser "resets the working
buffer" after emitting each 6-line group.  On this 12-line input whose
second group never sets `CL`, the second record of the code keeps the close
`1.5` buffered by the first group, while the buffer-resetting parser
described by the claim emits the initial default `0`: the two runs
disagree, so the claim as stated is false of the code. -/
theorem triplet_buffer_not_reset_counterexample :
    (runTrip tripLinesStale (initTrip [])).1.col =
      [("A", [⟨"d1", 1, 2, 1/2, 3/2, 10⟩, ⟨"d2", 4, 5, 1/4, 3/2, 20⟩])] ∧
    (runTripSpec tripLinesStale (initTrip [])).1.col =
      [("A", [⟨"d1", 1, 2, 1/2, 3/2, 10⟩, ⟨"d2", 4, 5, 1/4, 0, 20⟩])] ∧
    ((⟨"d2", 4, 5, 1/4, 3/2, 20⟩ : TradingData) ≠ ⟨"d2", 4, 5, 1/4, 0, 20⟩) := by
  with_unfolding_all decide

/-- C1 (amended): after every 6th successfully parsed line since the last
flush, the parser emits exactly one record built from the currently
buffered field values, attaches it to the stock named by the most recently
seen stock code, and resets only the line counter — the buffered field
values persist; on any other successfully parsed line nothing is
emitted. -/
theorem triplet_flush_resets_only_counter (st : TripState) (line : String)
    (h : lineOk line = true) :
    (st.count = 5 →
      tripLine st line =
        .ok { lineUpd line st with
              count := 0,
              col := addDayData st.col (lineUpd line st).stock_code
                       (bufRecord (lineUpd line st)) }) ∧
    (st.count ≠ 5 → tripLine st line = .ok (lineUpd line st)) := by
  have hc := (lineUpd_count_col line st h).1
  have hcol := (lineUpd_count_col line st h).2
  constructor
  · intro h5
    simp only [tripLine, h, if_true]
    rw [tripFlush, if_pos (by rw [hc, h5])]
    rw [hcol]
  · intro h5
    simp only [tripLine, h, if_true]
    rw [tripFlush_of_ne _ (by omega)]

/-- C1 witness: a concrete sixth line (`B:CL:9.0` on a buffer at count 5)
emits one record built from the buffer, attached under the stock code of the line,
code, and only the counter returns to zero. -/
theorem triplet_flush_resets_only_counter_witness :
    tripLine ⟨5, "A", "d", 1, 2, 3, 4, 10, []⟩ "B:CL:9.0" =
      .ok ⟨0, "B", "d", 1, 2, 3, 9, 10, [("B", [⟨"d", 1, 2, 3, 9, 10⟩])]⟩ := by
  have h := (triplet_flush_resets_only_counter ⟨5, "A", "d", 1, 2, 3, 4, 10, []⟩
    "B:CL:9.0" (by with_unfolding_all decide)).1 rfl
  exact h.trans (by with_unfolding_all decide)

/-- C10: a triplet line splitting into exactly 3 colon-separated tokens
whose key is outside DA/OP/HI/LO/CL/VO raises no error — it is silently
counted toward the current 6-line group (and still assigns the stock
code) while contributing no field value, so a group containing such a
line still emits a record with the default or previously buffered value
standing in for the missing field. -/
theorem triplet_unknown_key_counted (st : TripState) (code key data : List Char)
    (hkey : key ∉ [String.toList "DA", String.toList "OP", String.toList "HI",
                   String.toList "LO", String.toList "CL", String.toList "VO"])
    (hc : ':' ∉ code) (hk : ':' ∉ key) (hd : ':' ∉ data) :
    lineOk ⟨code ++ ':' :: (key ++ ':' :: data)⟩ = true ∧
    lineUpd ⟨code ++ ':' :: (key ++ ':' :: data)⟩ st =
      { st with stock_code := ⟨code⟩, count := st.count + 1 } ∧
    (st.count = 5 →
      tripLine st ⟨code ++ ':' :: (key ++ ':' :: data)⟩ =
        .ok { st with
              stock_code := ⟨code⟩,
              count := 0,
              col := addDayData st.col ⟨code⟩ (bufRecord st) }) := by
  have hsplit : splitOn ':' (String.toList ⟨code ++ ':' :: (key ++ ':' :: data)⟩)
      = [code, key, data] := by
    show splitOn ':' (code ++ ':' :: (key ++ ':' :: data)) = _
    rw [splitOn_append ':' code _ hc, splitOn_append ':' key data hk,
        splitOn_not_mem ':' data hd]
  simp only [List.mem_cons, List.not_mem_nil, or_false, not_or] at hkey
  obtain ⟨k1, k2, k3, k4, k5, k6⟩ := hkey
  have hok : lineOk ⟨code ++ ':' :: (key ++ ':' :: data)⟩ = true := by
    unfold lineOk
    rw [hsplit]
    show lineOk3 key data = true
    unfold lineOk3
    rw [if_neg k1, if_neg k2, if_neg k3, if_neg k4, if_neg k5, if_neg k6]
  have hupd : lineUpd ⟨code ++ ':' :: (key ++ ':' :: data)⟩ st =
      { st with stock_code := ⟨code⟩, count := st.count + 1 } := by
    unfold lineUpd
    rw [hsplit]
    show lineUpd3 code key data st = _
    unfold lineUpd3
    rw [if_neg k1, if_neg k2, if_neg k3, if_neg k4, if_neg k5, if_neg k6]
  refine ⟨hok, hupd, ?_⟩
  intro h5
  simp only [tripLine, hok, if_true]
  rw [hupd, tripFlush, if_pos (by rw [h5]), bufRecord]
  rfl

/-- C10 witness: the unknown-key line `AAA:XX:7` parses, counts as the
sixth line of its group, and the emitted record carries the previously
buffered close `4` in place of a value from the group. -/
theorem triplet_unknown_key_counted_witness :
    lineOk "AAA:XX:7" = true ∧
    tripLine ⟨5, "Z", "dd", 1, 2, 3, 4, 9, []⟩ "AAA:XX:7" =
      .ok ⟨0, "AAA", "dd", 1, 2, 3, 4, 9, [("AAA", [⟨"dd", 1, 2, 3, 4, 9⟩])]⟩ := by
  have h := triplet_unknown_key_counted ⟨5, "Z", "dd", 1, 2, 3, 4, 9, []⟩
    "AAA".toList "XX".toList "7".toList (by decide) (by decide) (by decide)
    (by decide)
  exact ⟨h.1, (h.2.2 rfl).trans (by with_unfolding_all decide)⟩

/-- C4 counterexample: the claim compares the CSV line (volume `100`)
with the triplet group `CODE:VO:10` (volume `10`).  Both loads produce
exactly one record, but the records differ in their volume field, so the
claimed equivalence fails on the own inputs of the claim. -/
theorem csv_triplet_volume_mismatch :
    runCSV ["ADV,2023-01-01,1.0,2.0,0.5,1.5,100\n"] [] =
      ([("ADV", [⟨"2023-01-01", 1, 2, 1/2, 3/2, 100⟩])], none) ∧
    (runTrip ["CODE:DA:2023-01-01", "CODE:OP:1.0", "CODE:HI:2.0",
              "CODE:LO:0.5", "CODE:CL:1.5", "CODE:VO:10"]
        (initTrip [])).1.col =
      [("CODE", [⟨"2023-01-01", 1, 2, 1/2, 3/2, 10⟩])] ∧
    ((⟨"2023-01-01", 1, 2, 1/2, 3/2, 100⟩ : TradingData) ≠
      ⟨"2023-01-01", 1, 2, 1/2, 3/2, 10⟩) := by
  with_unfolding_all decide

/-- C4 (amended): loading the CSV line
`"ADV,2023-01-01,1.0,2.0,0.5,1.5,100\n"` yields exactly one record with
open 1.0, high 2.0, low 0.5, close 1.5, volume 100 on the stock `ADV`;
and a triplet group of the six lines for the same day with matching
volume `CODE:VO:100` (`trip6`), presented in any key order, produces one
record whose fields all equal those of the CSV-produced record. -/
theorem csv_triplet_equivalent_records (l : List String) (hp : l.Perm trip6) :
    runCSV ["ADV,2023-01-01,1.0,2.0,0.5,1.5,100\n"] [] =
      ([("ADV", [⟨"2023-01-01", 1, 2, 1/2, 3/2, 100⟩])], none) ∧
    (runTrip l (initTrip [])).1.col =
      [("CODE", [⟨"2023-01-01", 1, 2, 1/2, 3/2, 100⟩])] ∧
    (runTrip l (initTrip [])).2 = none := by
  have hok : ∀ x ∈ l, lineOk x = true := by
    intro x hx
    have hx6 : x ∈ trip6 := hp.mem_iff.mp hx
    simp only [trip6, List.mem_cons, List.not_mem_nil, or_false] at hx6
    rcases hx6 with rfl | rfl | rfl | rfl | rfl | rfl <;> with_unfolding_all decide
  have hlen : l.length = 6 := by
    have := hp.length_eq
    simpa [trip6] using this
  have hrun := runTrip_good_six l (initTrip []) hok
    (by simp [hlen, initTrip]) (by simp [initTrip])
  have hfold : l.foldl (fun s x => lineUpd x s) (initTrip []) =
      trip6.foldl (fun s x => lineUpd x s) (initTrip []) := by
    refine hp.foldl_eq' ?_ (initTrip [])
    intro x hx y hy z
    have hx6 : x ∈ trip6 := hp.mem_iff.mp hx
    have hy6 : y ∈ trip6 := hp.mem_iff.mp hy
    simp only [trip6, List.mem_cons, List.not_mem_nil, or_false] at hx6 hy6
    rcases hx6 with rfl | rfl | rfl | rfl | rfl | rfl <;>
      rcases hy6 with rfl | rfl | rfl | rfl | rfl | rfl <;>
      with_unfolding_all rfl
  rw [hrun, hfold]
  refine ⟨by with_unfolding_all decide, by with_unfolding_all decide, rfl⟩

/-- C4 witness: the triplet group presented in reverse key order
(volume first, date last) produces the record equal to the CSV one. -/
theorem csv_triplet_equivalent_records_witness :
    runCSV ["ADV,2023-01-01,1.0,2.0,0.5,1.5,100\n"] [] =
      ([("ADV", [⟨"2023-01-01", 1, 2, 1/2, 3/2, 100⟩])], none) ∧
    (runTrip trip6.reverse (initTrip [])).1.col =
      [("CODE", [⟨"2023-01-01", 1, 2, 1/2, 3/2, 100⟩])] ∧
    (runTrip trip6.reverse (initTrip [])).2 = none := by
  exact csv_triplet_equivalent_records trip6.reverse (by decide)

/-- C7: a CSV line that does not split into exactly 7 comma-separated
fields raises the field-count error; otherwise the first of
open/high/low/close that fails to parse as floating point, or a volume
that fails to parse as an integer after trimming a trailing line
terminator, raises the error naming that field; a well-formed line raises
nothing and yields the parsed record. -/
theorem csv_line_error_handling (line : String) :
    ((splitOn ',' line.toList).length ≠ 7 →
      csvLine line = .error .notEnoughParameters) ∧
    (∀ c d o hi lo cl v,
      splitOn ',' line.toList = [c, d, o, hi, lo, cl, v] →
      (pyFloat? o = none → csvLine line = .error (.fieldErr .day_open)) ∧
      (∀ vo, pyFloat? o = some vo →
        (pyFloat? hi = none → csvLine line = .error (.fieldErr .day_high)) ∧
        (∀ vh, pyFloat? hi = some vh →
          (pyFloat? lo = none → csvLine line = .error (.fieldErr .day_low)) ∧
          (∀ vl, pyFloat? lo = some vl →
            (pyFloat? cl = none → csvLine line = .error (.fieldErr .day_close)) ∧
            (∀ vc, pyFloat? cl = some vc →
              (pyInt? (stripChars (· = '\n') v) = none →
                csvLine line = .error (.fieldErr .volume)) ∧
              (∀ vv, pyInt? (stripChars (· = '\n') v) = some vv →
                csvLine line = .ok (⟨c⟩, ⟨⟨d⟩, vo, vh, vl, vc, vv⟩))))))) := by
  constructor
  · intro h
    unfold csvLine
    exact csvFields_length_ne _ h
  · intro c d o hi lo cl v hsplit
    unfold csvLine
    rw [hsplit]
    refine ⟨fun ho => by simp [csvFields, ho], fun vo ho => ?_⟩
    refine ⟨fun hh => by simp [csvFields, ho, hh], fun vh hh => ?_⟩
    refine ⟨fun hl => by simp [csvFields, ho, hh, hl], fun vl hl => ?_⟩
    refine ⟨fun hcl => by simp [csvFields, ho, hh, hl, hcl], fun vc hcl => ?_⟩
    refine ⟨fun hv => by simp [csvFields, ho, hh, hl, hcl, hv], fun vv hv => ?_⟩
    simp [csvFields, ho, hh, hl, hcl, hv]

/-- C7 witness: a 6-field line raises the field-count error; `open="abc"`
raises the day-open error; `volume="xyz"` raises the volume error; the
well-formed line of the spec raises nothing. -/
theorem csv_line_error_handling_witness :
    csvLine "ADV,2023-01-01,1.0,2.0,0.5,1.5" = .error .notEnoughParameters ∧
    csvLine "ADV,2023-01-01,abc,2.0,0.5,1.5,100" = .error (.fieldErr .day_open) ∧
    csvLine "ADV,2023-01-01,1.0,2.0,0.5,1.5,xyz" = .error (.fieldErr .volume) ∧
    csvLine "ADV,2023-01-01,1.0,2.0,0.5,1.5,100\n" =
      .ok ("ADV", ⟨"2023-01-01", 1, 2, 1/2, 3/2, 100⟩) := by
  refine ⟨?_, ?_, ?_, ?_⟩
  · exact (csv_line_error_handling "ADV,2023-01-01,1.0,2.0,0.5,1.5").1 (by decide)
  · exact ((csv_line_error_handling "ADV,2023-01-01,abc,2.0,0.5,1.5,100").2
      "ADV".toList "2023-01-01".toList "abc".toList "2.0".toList "0.5".toList
      "1.5".toList "100".toList (by decide)).1 (by decide)
  · have h0 := (csv_line_error_handling "ADV,2023-01-01,1.0,2.0,0.5,1.5,xyz").2
      "ADV".toList "2023-01-01".toList "1.0".toList "2.0".toList "0.5".toList
      "1.5".toList "xyz".toList (by decide)
    have h1 := h0.2 1 (by with_unfolding_all decide)
    have h2 := h1.2 2 (by with_unfolding_all decide)
    have h3 := h2.2 (1/2) (by with_unfolding_all decide)
    have h4 := h3.2 (3/2) (by with_unfolding_all decide)
    exact h4.1 (by decide)
  · have h0 := (csv_line_error_handling "ADV,2023-01-01,1.0,2.0,0.5,1.5,100\n").2
      "ADV".toList "2023-01-01".toList "1.0".toList "2.0".toList "0.5".toList
      "1.5".toList "100\n".toList (by decide)
    have h1 := h0.2 1 (by with_unfolding_all decide)
    have h2 := h1.2 2 (by with_unfolding_all decide)
    have h3 := h2.2 (1/2) (by with_unfolding_all decide)
    have h4 := h3.2 (3/2) (by with_unfolding_all decide)
    have h5 := h4.2 100 (by with_unfolding_all decide)
    exact h5.trans (by with_unfolding_all decide)

/-- C8: whichever loader is used, a failing line aborts the load with the
error and performs no rollback — the resulting collection state is exactly
the one reached after the lines before the failing line, and nothing at or
after the failing line is applied. -/
theorem load_abort_no_rollback :
    (∀ (pre post : List String) (line : String) (col colPre : StockCollection)
        (e : LoadErr),
      runCSV pre col = (colPre, none) → csvLine line = .error e →
      runCSV (pre ++ line :: post) col = (colPre, some e)) ∧
    (∀ (pre post : List String) (line : String) (st stPre : TripState)
        (e : LoadErr),
      runTrip pre st = (stPre, none) → tripLine stPre line = .error e →
      runTrip (pre ++ line :: post) st = (stPre, some e)) := by
  constructor
  · intro pre
    induction pre with
    | nil =>
      intro post line col colPre e hpre hline
      have hcol : col = colPre := by simpa [runCSV] using hpre
      subst hcol
      simp [runCSV, hline]
    | cons x t ih =>
      intro post line col colPre e hpre hline
      rcases hx : csvLine x with ex | ⟨cx, rx⟩
      · simp [runCSV, hx] at hpre
      · have hpre' : runCSV t (addDayData col cx rx) = (colPre, none) := by
          simpa [runCSV, hx] using hpre
        rw [List.cons_append]
        simp only [runCSV, hx]
        exact ih post line _ colPre e hpre' hline
  · intro pre
    induction pre with
    | nil =>
      intro post line st stPre e hpre hline
      have hst : st = stPre := by simpa [runTrip] using hpre
      subst hst
      simp [runTrip, hline]
    | cons x t ih =>
      intro post line st stPre e hpre hline
      rcases hx : tripLine st x with ex | sx
      · simp [runTrip, hx] at hpre
      · have hpre' : runTrip t sx = (stPre, none) := by
          simpa [runTrip, hx] using hpre
        rw [List.cons_append]
        simp only [runTrip, hx]
        exact ih post line sx stPre e hpre' hline

/-- C8 witness: in both formats a malformed middle line stops the load —
the record from the good line (resp. the completed first triplet group)
stays applied, the error is reported, and the line after the failure is
never applied. -/
theorem load_abort_no_rollback_witness :
    runCSV ["ADV,2023-01-01,1.0,2.0,0.5,1.5,100", "garbage",
            "ZZZ,2023-01-02,1.0,2.0,0.5,1.5,100"] [] =
      ([("ADV", [⟨"2023-01-01", 1, 2, 1/2, 3/2, 100⟩])],
       some .notEnoughParameters) ∧
    runTrip (trip6 ++ "A:OP:xx" :: ["B:OP:9.0"]) (initTrip []) =
      (⟨0, "CODE", "2023-01-01", 1, 2, 1/2, 3/2, 100,
        [("CODE", [⟨"2023-01-01", 1, 2, 1/2, 3/2, 100⟩])]⟩,
       some .invalidTriplet) := by
  constructor
  · exact (load_abort_no_rollback).1
      ["ADV,2023-01-01,1.0,2.0,0.5,1.5,100"] ["ZZZ,2023-01-02,1.0,2.0,0.5,1.5,100"]
      "garbage" [] [("ADV", [⟨"2023-01-01", 1, 2, 1/2, 3/2, 100⟩])]
      .notEnoughParameters (by with_unfolding_all decide) (by decide)
  · exact (load_abort_no_rollback).2
      trip6 ["B:OP:9.0"] "A:OP:xx" (initTrip [])
      ⟨0, "CODE", "2023-01-01", 1, 2, 1/2, 3/2, 100,
       [("CODE", [⟨"2023-01-01", 1, 2, 1/2, 3/2, 100⟩])]⟩
      .invalidTriplet (by with_unfolding_all decide) (by with_unfolding_all decide)

/-- C2 witness: on a concrete analyser with window 3 and two processed
closes, a `process` call right after `reset` raises. -/
theorem movingAverage_reset_breaks_reuse_witness :
    MovingAverage.process (MovingAverage.reset ⟨3, 2, .lst [10, 20]⟩) 30 =
      .error "AttributeError: int object has no attribute append" := by
  exact (movingAverage_reset_breaks_reuse ⟨3, 2, .lst [10, 20]⟩ 30).2.2

/-- C6 witness: highs `[2, 5, 3]` and lows `[1, 0.5, 2]` give `(5, 0.5)`. -/
theorem highLow_result_max_min_witness :
    HighLow.result
      ([(⟨"w1", 0, 2, 1, 0, 0⟩ : TradingData), ⟨"w2", 0, 5, 1/2, 0, 0⟩,
        ⟨"w3", 0, 3, 2, 0, 0⟩].foldl HighLow.process HighLow.init) =
      some (5, 1/2) := by
  have h := (highLow_result_max_min ⟨"w1", 0, 2, 1, 0, 0⟩
    [⟨"w2", 0, 5, 1/2, 0, 0⟩, ⟨"w3", 0, 3, 2, 0, 0⟩]).1
  exact h.trans (by with_unfolding_all decide)

end StockAnalysis
